import Mathlib

/-!
Verification of the Lyft dataset devkit database layer
(`lyft_dataset_sdk/lyftdataset.py`).

The development shallowly embeds the table store, the reverse index, the
denormalization pass (`__make_reverse_index__`), the keyframe/non-keyframe
box resolver (`get_boxes`), the velocity estimator (`box_velocity`) and the
coordinate pipeline (`get_sample_data`).  Records are typed structures,
Python dictionaries become association lists with last-write-wins update,
numbers are exact rationals, and every fallible Python operation (KeyError,
IndexError, ZeroDivisionError, FileNotFoundError) is an `Option`/`Except`
failure.  External collaborators (the Box container of `data_classes.py`,
the visibility check of `geometry_utils.py`, the quaternion library, the
trigonometry used by the flattened-vehicle branch) are modelled from the
spec where noted.
-/

/-- 3-vectors of exact rationals (translations, box centers, velocities). -/
def Vec3 : Type := ℚ × ℚ × ℚ

instance : DecidableEq Vec3 := by unfold Vec3; infer_instance

/-- Componentwise vector addition. -/
def addV (a b : Vec3) : Vec3 := (a.1 + b.1, a.2.1 + b.2.1, a.2.2 + b.2.2)

/-- Componentwise vector subtraction (`pos_last - pos_first`). -/
def subV (a b : Vec3) : Vec3 := (a.1 - b.1, a.2.1 - b.2.1, a.2.2 - b.2.2)

/-- Componentwise vector negation (`-np.array(...)`). -/
def negV (a : Vec3) : Vec3 := (-a.1, -a.2.1, -a.2.2)

/-- Componentwise division of a vector by a scalar (`pos_diff / time_diff`). -/
def divV (a : Vec3) (d : ℚ) : Vec3 := (a.1 / d, a.2.1 / d, a.2.2 / d)

/-- Quaternions with exact rational components, stored `w, x, y, z` as in the
JSON tables. -/
structure Quat where
  w : ℚ
  x : ℚ
  y : ℚ
  z : ℚ
deriving DecidableEq

/-- Hamilton product of two quaternions. -/
def Quat.mul (a b : Quat) : Quat :=
  ⟨a.w * b.w - a.x * b.x - a.y * b.y - a.z * b.z,
   a.w * b.x + a.x * b.w + a.y * b.z - a.z * b.y,
   a.w * b.y - a.x * b.z + a.y * b.w + a.z * b.x,
   a.w * b.z + a.x * b.y - a.y * b.x + a.z * b.w⟩

/-- Quaternion conjugate. -/
def Quat.conj (a : Quat) : Quat := ⟨a.w, -a.x, -a.y, -a.z⟩

/-- Squared norm of a quaternion. -/
def Quat.normSq (a : Quat) : ℚ := a.w * a.w + a.x * a.x + a.y * a.y + a.z * a.z

/-- Quaternion inverse: conjugate divided by the squared norm. -/
def Quat.inverse (a : Quat) : Quat :=
  ⟨a.w / a.normSq, -a.x / a.normSq, -a.y / a.normSq, -a.z / a.normSq⟩

/-- Rotation of a 3-vector by a unit quaternion via conjugation
`q * (0, v) * q.inverse`. -/
def Quat.rotateVec (q : Quat) (v : Vec3) : Vec3 :=
  let p : Quat := ⟨0, v.1, v.2.1, v.2.2⟩
  let r := (q.mul p).mul q.inverse
  (r.x, r.y, r.z)

/-- Camera intrinsic matrices, kept as the raw JSON row-of-rows shape. -/
def Mat3 : Type := List (List ℚ)

instance : DecidableEq Mat3 := by unfold Mat3; infer_instance

/-- Modelled from the spec: the Box container of the external
`data_classes.py` module (absent from the sources) holds a center, a size
`(w, l, h)`, a rotation quaternion, a category name and the annotation
token. -/
structure Box where
  center : Vec3
  size : Vec3
  orientation : Quat
  name : String
  token : String
deriving DecidableEq

/-- Modelled from the spec: `translate(delta)` of the external Box class adds
delta to the translation. -/
def Box.translate (b : Box) (v : Vec3) : Box := { b with center := addV b.center v }

/-- Modelled from the spec: `rotate(q)` of the external Box class
pre-multiplies the rotation by `q` and rotates the translation by `q`. -/
def Box.rotate (b : Box) (q : Quat) : Box :=
  { b with center := q.rotateVec b.center, orientation := q.mul b.orientation }

/-! ## Record types (one structure per table, fields as in the JSON schema;
derived fields added by the denormalizer default to empty values). -/

structure CategoryRec where
  token : String
  name : String
deriving DecidableEq

structure InstanceRec where
  token : String
  category_token : String
deriving DecidableEq

structure SensorRec where
  token : String
  channel : String
  modality : String
deriving DecidableEq

structure CalRec where
  token : String
  sensor_token : String
  rotation : Quat
  translation : Vec3
  camera_intrinsic : Mat3
deriving DecidableEq

structure EgoPoseRec where
  token : String
  rotation : Quat
  translation : Vec3
  timestamp : ℚ
deriving DecidableEq

structure LogRec where
  token : String
  map_token : String := ""
deriving DecidableEq

structure MapRec where
  token : String
  filename : String
  log_tokens : Option (List String)
deriving DecidableEq

structure SampleRec where
  token : String
  timestamp : ℚ
  prev : String
  next : String
  data : List (String × String) := []
  anns : List String := []
deriving DecidableEq

structure SampleDataRec where
  token : String
  sample_token : String
  ego_pose_token : String
  calibrated_sensor_token : String
  timestamp : ℚ
  is_key_frame : Bool
  filename : String
  width : ℕ
  height : ℕ
  prev : String
  next : String
  sensor_modality : String := ""
  channel : String := ""
deriving DecidableEq

structure AnnRec where
  token : String
  sample_token : String
  instance_token : String
  translation : Vec3
  size : Vec3
  rotation : Quat
  prev : String
  next : String
  category_name : String := ""
deriving DecidableEq

/-- The loaded database.  The tables the modelled operations consult are
kept; `attribute`, `visibility` and `scene` never participate in the
embedded logic (and `attribute`/`instance` are Lean keywords), so the
annotation table is called `sample_anns` and the instance table
`instances`.  The opaque map-mask handle is an external collaborator and
is omitted. -/
structure Db where
  category : List CategoryRec
  instances : List InstanceRec
  sensor : List SensorRec
  calibrated_sensor : List CalRec
  ego_pose : List EgoPoseRec
  log : List LogRec
  sample : List SampleRec
  sample_data : List SampleDataRec
  sample_anns : List AnnRec
  map : List MapRec
deriving DecidableEq

/-! ## Table store and reverse index -/

/-- Error taxonomy of the load/denormalize phase: Python `KeyError`,
the explicit compatibility `Exception` of `__make_reverse_index__`,
`IndexError`/`KeyError` from indexing into an empty map table, and
`FileNotFoundError` from `__load_table__`. -/
inductive LoadErr where
  | keyError
  | compatibilityError
  | indexError
  | notFound
deriving DecidableEq

/-- The reverse index `_token2ind`: Python enumerates the table and writes
`d[member["token"]] = ind`, so the final value for a token is the position
of its last occurrence. -/
def token2ind {α : Type} (tok : α → String) (recs : List α) (t : String) : Option ℕ :=
  match recs with
  | [] => none
  | r :: l =>
    match token2ind tok l t with
    | some i => some (i + 1)
    | none => if tok r = t then some 0 else none

/-- `get(table_name, token)`: the record at position `_token2ind[table][token]`;
`none` models the `KeyError` raised on an unknown token. -/
def getRec {α : Type} (tok : α → String) (recs : List α) (t : String) : Option α :=
  (token2ind tok recs t).bind recs.get?

/-- `__load_table__`: the file system is a partial map from table name to
contents; an absent file yields an empty table when `missing_ok` is set and
a `FileNotFoundError` otherwise; a present file is returned unchanged. -/
def load_table {α : Type} (fs : String → Option (List α)) (table_name : String)
    (missing_ok : Bool) : Except LoadErr (List α) :=
  match fs table_name with
  | none => if missing_ok then Except.ok [] else Except.error LoadErr.notFound
  | some t => Except.ok t

/-! ## Python-dictionary association lists and fallible list traversal -/

/-- Python dict assignment `d[k] = v`: overwrite in place if the key is
present (keys stay unique and keep insertion order), else append. -/
def dictInsert (d : List (String × String)) (k v : String) : List (String × String) :=
  match d with
  | [] => [(k, v)]
  | p :: rest => if p.1 = k then (k, v) :: rest else p :: dictInsert rest k v

/-- Python dict lookup `d[k]`; `none` models the `KeyError`. -/
def dictLookup (d : List (String × String)) (k : String) : Option String :=
  match d with
  | [] => none
  | p :: rest => if p.1 = k then some p.2 else dictLookup rest k

/-- A list traversal in which every element may fail (a Python loop or
comprehension in which each step may raise). -/
def optMap {α β : Type} (f : α → Option β) : List α → Option (List β)
  | [] => some []
  | a :: l =>
    match f a, optMap f l with
    | some b, some r => some (b :: r)
    | _, _ => none

/-! ## Denormalizer (`__make_reverse_index__`), staged as in the source:
the token index is built first, then annotations and sample_data are
decorated, samples are reset and re-linked, and finally the log-to-map
backlink is built. -/

/-- Loop body of step 1: resolve one annotation's
`instance_token -> Instance -> category_token -> Category.name`. -/
def decorateAnn1 (db : Db) (r : AnnRec) : Option AnnRec :=
  match getRec InstanceRec.token db.instances r.instance_token with
  | none => none
  | some inst =>
    match getRec CategoryRec.token db.category inst.category_token with
    | none => none
    | some cat => some { r with category_name := cat.name }

/-- Step 1: attach `category_name` to every annotation. -/
def decorateAnns (db : Db) : Option Db :=
  match optMap (decorateAnn1 db) db.sample_anns with
  | none => none
  | some l => some { db with sample_anns := l }

/-- Loop body of step 2: resolve one sample_data's
`calibrated_sensor_token -> Sensor` and copy modality and channel. -/
def decorateSd1 (db : Db) (r : SampleDataRec) : Option SampleDataRec :=
  match getRec CalRec.token db.calibrated_sensor r.calibrated_sensor_token with
  | none => none
  | some cs =>
    match getRec SensorRec.token db.sensor cs.sensor_token with
    | none => none
    | some sr => some { r with sensor_modality := sr.modality, channel := sr.channel }

/-- Step 2: attach `sensor_modality` and `channel` to every sample_data. -/
def decorateSampleData (db : Db) : Option Db :=
  match optMap (decorateSd1 db) db.sample_data with
  | none => none
  | some l => some { db with sample_data := l }

/-- Step 3: initialize every sample's derived `data` mapping and `anns`
sequence to empty. -/
def resetSamples (db : Db) : Db :=
  { db with sample := db.sample.map fun s => { s with data := [], anns := [] } }

/-- Step 4: for every keyframe sample_data, set
`Sample.data[channel] = token` on the owning sample, found through the
pre-built token index (last write wins on a repeated channel). -/
def linkKeyframes (ind : String → Option ℕ) (samples : List SampleRec) :
    List SampleDataRec → Option (List SampleRec)
  | [] => some samples
  | sd :: rest =>
    if sd.is_key_frame then
      match ind sd.sample_token with
      | none => none
      | some i =>
        match samples.get? i with
        | none => none
        | some s =>
          linkKeyframes ind
            (samples.set i { s with data := dictInsert s.data sd.channel sd.token }) rest
    else linkKeyframes ind samples rest

/-- Step 5: append every annotation's token to its owning sample's `anns`. -/
def linkAnns (ind : String → Option ℕ) (samples : List SampleRec) :
    List AnnRec → Option (List SampleRec)
  | [] => some samples
  | a :: rest =>
    match ind a.sample_token with
    | none => none
    | some i =>
      match samples.get? i with
      | none => none
      | some s => linkAnns ind (samples.set i { s with anns := s.anns ++ [a.token] }) rest

/-- Inner loop of step 6: enter every token of one map record's
`log_tokens` into the `log_token -> map_token` dictionary. -/
def insertAll (acc : List (String × String)) (lts : List String) (mt : String) :
    List (String × String) :=
  lts.foldl (fun a lt => dictInsert a lt mt) acc

/-- Step 6a: build `log_token -> map_token` from every map record;
accessing a missing `log_tokens` field raises a `KeyError` (`none`). -/
def buildLogToMap (acc : List (String × String)) : List MapRec → Option (List (String × String))
  | [] => some acc
  | m :: rest =>
    match m.log_tokens with
    | none => none
    | some lts => buildLogToMap (insertAll acc lts m.token) rest

/-- Step 6b: attach `map_token` to every log record;
`log_to_map[log_record["token"]]` raises a `KeyError` on an uncovered log. -/
def setLogMapTokens (l2m : List (String × String)) : List LogRec → Option (List LogRec)
  | [] => some []
  | lg :: rest =>
    match dictLookup l2m lg.token with
    | none => none
    | some mt =>
      match setLogMapTokens l2m rest with
      | none => none
      | some r => some ({ lg with map_token := mt } :: r)

/-- Step 6: the compatibility check inspects only `self.map[0]`
(an empty map table makes that subscript itself fail), then builds the
dictionary and decorates the logs. -/
def linkMaps (db : Db) : Except LoadErr Db :=
  match db.map.head? with
  | none => Except.error LoadErr.indexError
  | some m0 =>
    match m0.log_tokens with
    | none => Except.error LoadErr.compatibilityError
    | some _ =>
      match buildLogToMap [] db.map with
      | none => Except.error LoadErr.keyError
      | some l2m =>
        match setLogMapTokens l2m db.log with
        | none => Except.error LoadErr.keyError
        | some logs => Except.ok { db with log := logs }

/-- `__make_reverse_index__`: the whole load-time denormalization pass.
The sample token index is computed from the raw sample table, exactly as
`_token2ind` is populated before any decoration (decoration never changes
a token, so positions stay valid). -/
def make_reverse_index (db : Db) : Except LoadErr Db :=
  match decorateAnns db with
  | none => Except.error LoadErr.keyError
  | some db1 =>
    match decorateSampleData db1 with
    | none => Except.error LoadErr.keyError
    | some db2 =>
      match linkKeyframes (token2ind SampleRec.token db.sample) (resetSamples db2).sample
          (resetSamples db2).sample_data with
      | none => Except.error LoadErr.keyError
      | some samples4 =>
        match linkAnns (token2ind SampleRec.token db.sample) samples4
            (resetSamples db2).sample_anns with
        | none => Except.error LoadErr.keyError
        | some samples5 => linkMaps { resetSamples db2 with sample := samples5 }

/-- Whether the load/denormalize phase completed. -/
def isOk : Except LoadErr Db → Bool
  | Except.ok _ => true
  | Except.error _ => false

/-- Spec-side predicate for C10: every log token appears in some map
record's `log_tokens` list. -/
def coveredByMaps (db : Db) : Bool :=
  db.log.all fun lg => db.map.any fun m => (m.log_tokens.getD []).contains lg.token

/-- Spec-side predicate for C8: the token `t` resolves in the sample_data
table to a keyframe record owned by the sample with token `stoken`. -/
def keyframeBackref (db : Db) (t stoken : String) : Bool :=
  match getRec SampleDataRec.token db.sample_data t with
  | some sd => sd.is_key_frame && sd.sample_token == stoken
  | none => false

/-! ## Temporal interpolator and box resolver (`get_box`, `get_boxes`) -/

/-- Python scalar division; `none` models the `ZeroDivisionError` raised by
`(t - t0) / (t1 - t0)` on a zero denominator. -/
def pyDiv (a b : ℚ) : Option ℚ := if b = 0 then none else some (a / b)

/-- One component of `np.interp(t, [t0, t1], [c0, c1])`: numpy returns the
first value below the grid, the last value at or above its end, and the
linear formula inside (no exception is raised, even on a degenerate
grid). -/
def interp1 (t t0 t1 c0 c1 : ℚ) : ℚ :=
  if t < t0 then c0
  else if t1 ≤ t then c1
  else c0 + (t - t0) * (c1 - c0) / (t1 - t0)

/-- The per-axis linear interpolation of a translation. -/
def interpV (t t0 t1 : ℚ) (a b : Vec3) : Vec3 :=
  (interp1 t t0 t1 a.1 b.1, interp1 t t0 t1 a.2.1 b.2.1, interp1 t t0 t1 a.2.2 b.2.2)

/-- Modelled from the spec: spherical interpolation is supplied by the
external quaternion library (absent from the sources); the spec fixes only
its endpoint behaviour — parameter 0 yields `q0` and parameter 1 yields
`q1` — modelled as componentwise linear interpolation between the
endpoints. -/
def slerp (q0 q1 : Quat) (amount : ℚ) : Quat :=
  ⟨q0.w + amount * (q1.w - q0.w), q0.x + amount * (q1.x - q0.x),
   q0.y + amount * (q1.y - q0.y), q0.z + amount * (q1.z - q0.z)⟩

/-- `get_box`: instantiate a Box from a sample annotation record. -/
def get_box (db : Db) (t : String) : Option Box :=
  match getRec AnnRec.token db.sample_anns t with
  | none => none
  | some r => some ⟨r.translation, r.size, r.rotation, r.category_name, r.token⟩

/-- The dict comprehension `{entry["instance_token"]: entry for entry in
prev_ann_recs}` followed by lookup: the last record with the queried
instance token wins. -/
def prevInstLookup (pset : List AnnRec) (itok : String) : Option AnnRec :=
  (pset.filter fun e => e.instance_token = itok).getLast?

/-- The loop body of `get_boxes` for one current annotation record: if the
instance also appears in the previous sample, interpolate center and
orientation at parameter `(t - t0) / (t1 - t0)`; otherwise instantiate the
current annotation unmodified. -/
def interpOneBox (pim : String → Option AnnRec) (t0 t1 t : ℚ) (db : Db)
    (c : AnnRec) : Option Box :=
  match pim c.instance_token with
  | some p =>
    match pyDiv (t - t0) (t1 - t0) with
    | none => none
    | some amount =>
      some ⟨interpV t t0 t1 p.translation c.translation, c.size,
            slerp p.rotation c.rotation amount, c.category_name, c.token⟩
  | none => get_box db c.token

/-- `get_boxes`: a keyframe capture, or one whose sample has no previous
sample, yields the current sample's own annotation boxes; otherwise every
current annotation is interpolated against the previous sample at the
capture timestamp clamped by `t = max(t0, min(t1, t))`. -/
def get_boxes (db : Db) (t : String) : Option (List Box) :=
  match getRec SampleDataRec.token db.sample_data t with
  | none => none
  | some sd =>
    match getRec SampleRec.token db.sample sd.sample_token with
    | none => none
    | some curr =>
      if curr.prev = "" ∨ sd.is_key_frame then
        optMap (get_box db) curr.anns
      else
        match getRec SampleRec.token db.sample curr.prev with
        | none => none
        | some prev =>
          match optMap (getRec AnnRec.token db.sample_anns) curr.anns,
                optMap (getRec AnnRec.token db.sample_anns) prev.anns with
          | some cset, some pset =>
            optMap
              (interpOneBox (prevInstLookup pset) prev.timestamp curr.timestamp
                (max prev.timestamp (min curr.timestamp sd.timestamp)) db)
              cset
          | _, _ => none

/-! ## Velocity estimator (`box_velocity`) -/

/-- `box_velocity`: the outer `none` models a `KeyError` during record
resolution; the inner `none` models the `(nan, nan, nan)` sentinel. -/
def box_velocity (db : Db) (t : String) (max_time_diff : ℚ) : Option (Option Vec3) :=
  match getRec AnnRec.token db.sample_anns t with
  | none => none
  | some current =>
    if current.prev = "" ∧ current.next = "" then some none
    else
      match (if current.prev ≠ "" then getRec AnnRec.token db.sample_anns current.prev
             else some current),
            (if current.next ≠ "" then getRec AnnRec.token db.sample_anns current.next
             else some current) with
      | some first, some lst =>
        match getRec SampleRec.token db.sample lst.sample_token,
              getRec SampleRec.token db.sample first.sample_token with
        | some sLast, some sFirst =>
          let pos_diff := subV lst.translation first.translation
          let time_diff := (1 / 1000000 : ℚ) * sLast.timestamp -
            (1 / 1000000 : ℚ) * sFirst.timestamp
          let mtd := if current.next ≠ "" ∧ current.prev ≠ "" then 2 * max_time_diff
            else max_time_diff
          if time_diff > mtd then some none else some (some (divV pos_diff time_diff))
        | _, _ => none
      | _, _ => none

/-! ## Coordinate pipeline (`get_sample_data`) -/

/-- Visibility policy levels of the external geometry utility. -/
inductive BoxVisibility where
  | ALL
  | ANY
  | NONE
deriving DecidableEq

/-- Modelled from the spec: the external collaborators of the coordinate
pipeline — the box-visibility check of the external `geometry_utils.py`
(a pass/fail predicate over a box, a camera intrinsic, an image size and a
policy) and the yaw-only quaternion of the flattened-vehicle branch, whose
computation (Euler angles plus trigonometry) lives in external numeric
libraries. -/
structure Externals where
  boxInImage : Box → Mat3 → ℕ × ℕ → BoxVisibility → Bool
  flatQuat : Quat → Quat

/-- The per-box transform chain of `get_sample_data`: flattened mode
translates by the negated ego translation and rotates by the inverse
yaw-only quaternion; sensor-local mode chains world→ego then ego→sensor. -/
def transformBox (ext : Externals) (flat : Bool) (pose : EgoPoseRec) (cs : CalRec)
    (b : Box) : Box :=
  if flat then
    (b.translate (negV pose.translation)).rotate (ext.flatQuat pose.rotation).inverse
  else
    (((b.translate (negV pose.translation)).rotate pose.rotation.inverse).translate
        (negV cs.translation)).rotate cs.rotation.inverse

/-- `get_sample_data`: resolves the records, obtains boxes (from an
explicit annotation-token subset, or via `get_boxes`), transforms each box
into the requested frame, and for camera sensors keeps exactly the boxes
passing the visibility check.  The data path is the record's file name
(path-root resolution is out of scope). -/
def get_sample_data (ext : Externals) (db : Db) (t : String) (box_vis_level : BoxVisibility)
    (selected_anntokens : Option (List String)) (flat_vehicle_coordinates : Bool) :
    Option (String × List Box × Option Mat3) :=
  match getRec SampleDataRec.token db.sample_data t with
  | none => none
  | some sd =>
    match getRec CalRec.token db.calibrated_sensor sd.calibrated_sensor_token with
    | none => none
    | some cs =>
      match getRec SensorRec.token db.sensor cs.sensor_token with
      | none => none
      | some sensor =>
        match getRec EgoPoseRec.token db.ego_pose sd.ego_pose_token with
        | none => none
        | some pose =>
          match (match selected_anntokens with
                 | some toks => optMap (get_box db) toks
                 | none => get_boxes db t) with
          | none => none
          | some boxes =>
            some (sd.filename,
              (boxes.map (transformBox ext flat_vehicle_coordinates pose cs)).filter
                (fun b =>
                  if sensor.modality = "camera" then
                    ext.boxInImage b cs.camera_intrinsic (sd.width, sd.height) box_vis_level
                  else true),
              if sensor.modality = "camera" then some cs.camera_intrinsic else none)

/-! ## Concrete databases (used by the witnesses and counterexamples) -/

/-- One car instance observed in two chained samples; one lidar keyframe per
sample plus a non-keyframe capture between them. -/
def exA0 : AnnRec := ⟨"a0", "samp0", "inst1", (0, 0, 0), (1, 2, 3), ⟨1, 0, 0, 0⟩, "", "a1", ""⟩

def exA1 : AnnRec := ⟨"a1", "samp1", "inst1", (2, 0, 0), (1, 2, 3), ⟨0, 1, 0, 0⟩, "a0", "", ""⟩

def exSamp0 : SampleRec := ⟨"samp0", 1000000, "", "samp1", [], []⟩

def exSamp1 : SampleRec := ⟨"samp1", 2000000, "samp0", "", [], []⟩

def exSd0 : SampleDataRec :=
  ⟨"sd0", "samp0", "ep1", "cs1", 1000000, true, "f0.bin", 0, 0, "", "sdi", "", ""⟩

def exSd1 : SampleDataRec :=
  ⟨"sd1", "samp1", "ep1", "cs1", 2000000, true, "f1.bin", 0, 0, "sdi", "", "", ""⟩

def exSdi : SampleDataRec :=
  ⟨"sdi", "samp1", "ep1", "cs1", 500000, false, "fi.bin", 0, 0, "sd0", "sd1", "", ""⟩

def exDb : Db where
  category := [⟨"cat1", "car"⟩]
  instances := [⟨"inst1", "cat1"⟩]
  sensor := [⟨"sen1", "LIDAR_TOP", "lidar"⟩, ⟨"sen2", "CAM_FRONT", "camera"⟩]
  calibrated_sensor :=
    [⟨"cs1", "sen1", ⟨1, 0, 0, 0⟩, (0, 0, 0), []⟩,
     ⟨"cs2", "sen2", ⟨1, 0, 0, 0⟩, (0, 0, 0), [[1, 0, 0], [0, 1, 0], [0, 0, 1]]⟩]
  ego_pose := [⟨"ep1", ⟨1, 0, 0, 0⟩, (0, 0, 0), 1000000⟩]
  log := [⟨"log1", ""⟩]
  sample := [exSamp0, exSamp1]
  sample_data := [exSd0, exSd1, exSdi]
  sample_anns := [exA0, exA1]
  map := [⟨"map1", "m1.png", some ["log1"]⟩]

/-- The denormalized records of `exDb`. -/
def exA0d : AnnRec := { exA0 with category_name := "car" }

def exA1d : AnnRec := { exA1 with category_name := "car" }

def exSamp0d : SampleRec :=
  { exSamp0 with data := [("LIDAR_TOP", "sd0")], anns := ["a0"] }

def exSamp1d : SampleRec :=
  { exSamp1 with data := [("LIDAR_TOP", "sd1")], anns := ["a1"] }

def exSd0d : SampleDataRec := { exSd0 with sensor_modality := "lidar", channel := "LIDAR_TOP" }

def exSd1d : SampleDataRec := { exSd1 with sensor_modality := "lidar", channel := "LIDAR_TOP" }

def exSdid : SampleDataRec := { exSdi with sensor_modality := "lidar", channel := "LIDAR_TOP" }

/-- The database produced by running the denormalizer on `exDb`. -/
def exDbDen : Db :=
  { exDb with
    log := [⟨"log1", "map1"⟩]
    sample := [exSamp0d, exSamp1d]
    sample_data := [exSd0d, exSd1d, exSdid]
    sample_anns := [exA0d, exA1d] }

deriving instance DecidableEq for Except

/-- Two samples sharing one timestamp, an instance annotated in both, and a
non-keyframe capture in the second sample: the degenerate interpolation
interval of C3. -/
def c3Db : Db where
  category := []
  instances := []
  sensor := []
  calibrated_sensor := []
  ego_pose := []
  log := []
  sample := [⟨"sampA", 5, "", "sampB", [], ["aA"]⟩, ⟨"sampB", 5, "sampA", "", [], ["aB"]⟩]
  sample_data := [⟨"sdX", "sampB", "ep1", "cs1", 5, false, "fx.bin", 0, 0, "", "", "lidar", "LIDAR_TOP"⟩]
  sample_anns :=
    [⟨"aA", "sampA", "inst1", (0, 0, 0), (1, 1, 1), ⟨1, 0, 0, 0⟩, "", "aB", "car"⟩,
     ⟨"aB", "sampB", "inst1", (1, 0, 0), (1, 1, 1), ⟨1, 0, 0, 0⟩, "aA", "", "car"⟩]
  map := []

/-- A map table whose second record lacks `log_tokens` while the first one
carries it: the C7 counterexample input. -/
def c7Db : Db where
  category := []
  instances := []
  sensor := []
  calibrated_sensor := []
  ego_pose := []
  log := [⟨"log1", ""⟩]
  sample := []
  sample_data := []
  sample_anns := []
  map := [⟨"map1", "m1.png", some ["log1"]⟩, ⟨"map2", "m2.png", none⟩]

/-- Trivial external collaborators: every box passes the visibility check
and the yaw-only quaternion is the identity map. -/
def exExternals : Externals := ⟨fun _ _ _ _ => true, fun q => q⟩

/-! ## Helper lemmas about the reverse index and the traversal helpers -/

lemma token2ind_eq_none {α : Type} (tok : α → String) (t : String) :
    ∀ recs : List α, t ∉ recs.map tok → token2ind tok recs t = none
  | [], _ => rfl
  | r :: l, h => by
    have h1 : t ∉ l.map tok := fun hm => h (by simp [hm])
    have h2 : ¬tok r = t := fun he => h (by simp [he])
    simp [token2ind, token2ind_eq_none tok t l h1, h2]

lemma token2ind_get {α : Type} (tok : α → String) (t : String) :
    ∀ (recs : List α) (i : ℕ), token2ind tok recs t = some i →
      ∃ r, recs.get? i = some r ∧ tok r = t
  | [], i, h => by simp [token2ind] at h
  | r :: l, i, h => by
    unfold token2ind at h
    cases hl : token2ind tok l t with
    | some j =>
      rw [hl] at h
      injection h with h
      subst h
      obtain ⟨s, hs, hst⟩ := token2ind_get tok t l j hl
      exact ⟨s, by simpa using hs, hst⟩
    | none =>
      rw [hl] at h
      by_cases he : tok r = t
      · rw [if_pos he] at h
        injection h with h
        subst h
        exact ⟨r, rfl, he⟩
      · rw [if_neg he] at h
        exact absurd h (by simp)

lemma getRec_mem_nodup {α : Type} (tok : α → String) :
    ∀ (recs : List α) (r : α), (recs.map tok).Nodup → r ∈ recs →
      getRec tok recs (tok r) = some r
  | [], r, _, hr => absurd hr (List.not_mem_nil r)
  | a :: l, r, hnd, hr => by
    rw [List.map_cons, List.nodup_cons] at hnd
    rcases List.mem_cons.mp hr with rfl | hmem
    · have hz : token2ind tok l (tok r) = none := token2ind_eq_none tok (tok r) l hnd.1
      simp [getRec, token2ind, hz]
    · have IH := getRec_mem_nodup tok l r hnd.2 hmem
      unfold getRec at IH ⊢
      cases hl : token2ind tok l (tok r) with
      | none => rw [hl] at IH; exact absurd IH (by simp)
      | some j =>
        rw [hl] at IH
        simp only [token2ind, hl]
        simpa using IH

lemma optMap_mem {α β : Type} (f : α → Option β) :
    ∀ (l : List α) (r : List β), optMap f l = some r →
      ∀ a ∈ l, ∃ b, f a = some b ∧ b ∈ r
  | [], r, _, a, ha => absurd ha (List.not_mem_nil a)
  | x :: l, r, h, a, ha => by
    unfold optMap at h
    cases hx : f x with
    | none => rw [hx] at h; exact absurd h (by simp)
    | some b =>
      rw [hx] at h
      cases hl : optMap f l with
      | none => rw [hl] at h; exact absurd h (by simp)
      | some rest =>
        rw [hl] at h
        injection h with h
        subst h
        rcases List.mem_cons.mp ha with rfl | hm
        · exact ⟨b, hx, List.mem_cons_self _ _⟩
        · obtain ⟨b2, hb2, hmem⟩ := optMap_mem f l rest hl a hm
          exact ⟨b2, hb2, List.mem_cons_of_mem _ hmem⟩

lemma optMap_map_eq {α β : Type} (f : α → Option β) (g : α → String) (gb : β → String)
    (hf : ∀ a b, f a = some b → gb b = g a) :
    ∀ (l : List α) (r : List β), optMap f l = some r → r.map gb = l.map g
  | [], r, h => by
    unfold optMap at h
    injection h with h
    subst h
    rfl
  | x :: l, r, h => by
    unfold optMap at h
    cases hx : f x with
    | none => rw [hx] at h; exact absurd h (by simp)
    | some b =>
      rw [hx] at h
      cases hl : optMap f l with
      | none => rw [hl] at h; exact absurd h (by simp)
      | some rest =>
        rw [hl] at h
        injection h with h
        subst h
        simp [hf x b hx, optMap_map_eq f g gb hf l rest hl]

lemma optMap_forall {α β : Type} (f : α → Option β) (l : List α) (r : List β)
    (h : optMap f l = some r) : ∀ a ∈ l, ∃ b, f a = some b := by
  intro a ha
  obtain ⟨b, hb, _⟩ := optMap_mem f l r h a ha
  exact ⟨b, hb⟩

/-! ## Helper lemmas about dictionaries and list updates -/

lemma dictInsert_mem (k v : String) :
    ∀ (d : List (String × String)) (p : String × String),
      p ∈ dictInsert d k v → p = (k, v) ∨ p ∈ d
  | [], p, hp => by
    unfold dictInsert at hp
    rcases List.mem_cons.mp hp with rfl | hm
    · exact Or.inl rfl
    · exact absurd hm (List.not_mem_nil p)
  | q :: rest, p, hp => by
    unfold dictInsert at hp
    by_cases hq : q.1 = k
    · rw [if_pos hq] at hp
      rcases List.mem_cons.mp hp with rfl | hm
      · exact Or.inl rfl
      · exact Or.inr (List.mem_cons_of_mem _ hm)
    · rw [if_neg hq] at hp
      rcases List.mem_cons.mp hp with rfl | hm
      · exact Or.inr (List.mem_cons_self _ _)
      · rcases dictInsert_mem k v rest p hm with h | h
        · exact Or.inl h
        · exact Or.inr (List.mem_cons_of_mem _ h)

lemma dictLookup_insert_src (k v t : String) :
    ∀ d, dictLookup (dictInsert d k v) t ≠ none →
      dictLookup d t ≠ none ∨ t = k
  | [], h => by
    unfold dictInsert dictLookup at h
    by_cases hk : k = t
    · exact Or.inr hk.symm
    · rw [if_neg hk] at h
      exact absurd rfl h
  | q :: rest, h => by
    unfold dictInsert at h
    by_cases hq : q.1 = k
    · rw [if_pos hq] at h
      unfold dictLookup at h
      by_cases hk : k = t
      · exact Or.inr hk.symm
      · rw [if_neg hk] at h
        refine Or.inl ?_
        unfold dictLookup
        rw [hq, if_neg hk]
        exact h
    · rw [if_neg hq] at h
      unfold dictLookup at h
      by_cases hqt : q.1 = t
      · refine Or.inl ?_
        unfold dictLookup
        rw [if_pos hqt]
        simp
      · rw [if_neg hqt] at h
        rcases dictLookup_insert_src k v t rest h with h2 | h2
        · refine Or.inl ?_
          unfold dictLookup
          rw [if_neg hqt]
          exact h2
        · exact Or.inr h2

lemma dictLookup_insertAll_src (mt t : String) :
    ∀ (lts : List String) (acc : List (String × String)),
      dictLookup (insertAll acc lts mt) t ≠ none →
      dictLookup acc t ≠ none ∨ t ∈ lts
  | [], acc, h => Or.inl h
  | lt :: rest, acc, h => by
    unfold insertAll at h
    rw [List.foldl_cons] at h
    rcases dictLookup_insertAll_src mt t rest (dictInsert acc lt mt) h with h2 | h2
    · rcases dictLookup_insert_src lt mt t acc h2 with h3 | h3
      · exact Or.inl h3
      · exact Or.inr (by simp [h3])
    · exact Or.inr (List.mem_cons_of_mem _ h2)

lemma get?_set_inv {α : Type} (a : α) :
    ∀ (l : List α) (i j : ℕ) (x : α), (l.set i a).get? j = some x →
      (i = j ∧ x = a ∧ ∃ b, l.get? j = some b) ∨ (i ≠ j ∧ l.get? j = some x)
  | [], i, j, x, h => by simp at h
  | c :: cs, 0, 0, x, h => by
    rw [List.set_cons_zero] at h
    refine Or.inl ⟨rfl, ?_, ⟨c, rfl⟩⟩
    simpa using h.symm
  | c :: cs, 0, k + 1, x, h => by
    rw [List.set_cons_zero] at h
    exact Or.inr ⟨by simp, by simpa using h⟩
  | c :: cs, m + 1, 0, x, h => by
    rw [List.set_cons_succ] at h
    exact Or.inr ⟨by simp, by simpa using h⟩
  | c :: cs, m + 1, k + 1, x, h => by
    rw [List.set_cons_succ] at h
    rcases get?_set_inv a cs m k x (by simpa using h) with ⟨h1, h2, b, h3⟩ | ⟨h1, h2⟩
    · exact Or.inl ⟨by omega, h2, ⟨b, by simpa using h3⟩⟩
    · exact Or.inr ⟨by omega, by simpa using h2⟩

lemma mem_set_inv {α : Type} (a : α) :
    ∀ (l : List α) (i : ℕ) (x : α), x ∈ l.set i a → x = a ∨ x ∈ l
  | [], i, x, h => by simp at h
  | c :: cs, 0, x, h => by
    rw [List.set_cons_zero] at h
    rcases List.mem_cons.mp h with rfl | hm
    · exact Or.inl rfl
    · exact Or.inr (List.mem_cons_of_mem _ hm)
  | c :: cs, m + 1, x, h => by
    rw [List.set_cons_succ] at h
    rcases List.mem_cons.mp h with rfl | hm
    · exact Or.inr (List.mem_cons_self _ _)
    · rcases mem_set_inv a cs m x hm with h2 | h2
      · exact Or.inl h2
      · exact Or.inr (List.mem_cons_of_mem _ h2)

/-! ## Helper lemmas about the denormalizer stages -/

lemma buildLogToMap_none (r : MapRec) (hr : r.log_tokens = none) :
    ∀ (maps : List MapRec) (acc : List (String × String)),
      r ∈ maps → buildLogToMap acc maps = none
  | [], acc, hm => absurd hm (List.not_mem_nil r)
  | m :: rest, acc, hm => by
    unfold buildLogToMap
    rcases List.mem_cons.mp hm with rfl | hmem
    · rw [hr]
    · cases hl : m.log_tokens with
      | none => rfl
      | some lts => exact buildLogToMap_none r hr rest _ hmem

lemma buildLogToMap_src (t : String) :
    ∀ (maps : List MapRec) (acc d : List (String × String)),
      buildLogToMap acc maps = some d → dictLookup d t ≠ none →
      dictLookup acc t ≠ none ∨ ∃ m ∈ maps, ∃ lts, m.log_tokens = some lts ∧ t ∈ lts
  | [], acc, d, h, hd => by
    unfold buildLogToMap at h
    injection h with h
    subst h
    exact Or.inl hd
  | m :: rest, acc, d, h, hd => by
    unfold buildLogToMap at h
    cases hl : m.log_tokens with
    | none => rw [hl] at h; exact absurd h (by simp)
    | some lts =>
      rw [hl] at h
      rcases buildLogToMap_src t rest (insertAll acc lts m.token) d h hd with h2 | ⟨m2, hm2, l2, hl2, ht2⟩
      · rcases dictLookup_insertAll_src m.token t lts acc h2 with h3 | h3
        · exact Or.inl h3
        · exact Or.inr ⟨m, List.mem_cons_self _ _, lts, hl, h3⟩
      · exact Or.inr ⟨m2, List.mem_cons_of_mem _ hm2, l2, hl2, ht2⟩

lemma setLogMapTokens_covers (l2m : List (String × String)) :
    ∀ (logs out : List LogRec), setLogMapTokens l2m logs = some out →
      ∀ lg ∈ logs, dictLookup l2m lg.token ≠ none
  | [], out, _, lg, hlg => absurd hlg (List.not_mem_nil lg)
  | x :: rest, out, h, lg, hlg => by
    unfold setLogMapTokens at h
    cases hx : dictLookup l2m x.token with
    | none => rw [hx] at h; exact absurd h (by simp)
    | some mt =>
      rw [hx] at h
      cases hr : setLogMapTokens l2m rest with
      | none => rw [hr] at h; exact absurd h (by simp)
      | some r =>
        rcases List.mem_cons.mp hlg with rfl | hm
        · rw [hx]; simp
        · exact setLogMapTokens_covers l2m rest r hr lg hm

lemma decorateAnns_shape (db db1 : Db) (h : decorateAnns db = some db1) :
    ∃ l, optMap (decorateAnn1 db) db.sample_anns = some l ∧
      db1 = { db with sample_anns := l } := by
  unfold decorateAnns at h
  cases hm : optMap (decorateAnn1 db) db.sample_anns with
  | none => rw [hm] at h; exact absurd h (by simp)
  | some l =>
    rw [hm] at h
    injection h with h
    exact ⟨l, rfl, h.symm⟩

lemma decorateSampleData_shape (db db2 : Db) (h : decorateSampleData db = some db2) :
    ∃ l, optMap (decorateSd1 db) db.sample_data = some l ∧
      db2 = { db with sample_data := l } := by
  unfold decorateSampleData at h
  cases hm : optMap (decorateSd1 db) db.sample_data with
  | none => rw [hm] at h; exact absurd h (by simp)
  | some l =>
    rw [hm] at h
    injection h with h
    exact ⟨l, rfl, h.symm⟩

lemma decorateSd1_token (db : Db) (r b : SampleDataRec) (h : decorateSd1 db r = some b) :
    b.token = r.token := by
  unfold decorateSd1 at h
  split at h
  · exact absurd h (by simp)
  · split at h
    · exact absurd h (by simp)
    · injection h with h
      rw [← h]

lemma linkMaps_shape (d db' : Db) (h : linkMaps d = Except.ok db') :
    ∃ m0 lts0 l2m logs, d.map.head? = some m0 ∧ m0.log_tokens = some lts0 ∧
      buildLogToMap [] d.map = some l2m ∧ setLogMapTokens l2m d.log = some logs ∧
      db' = { d with log := logs } := by
  unfold linkMaps at h
  split at h
  · exact absurd h (by simp)
  next m0 h0 =>
    split at h
    · exact absurd h (by simp)
    next lts0 h1 =>
      split at h
      · exact absurd h (by simp)
      next l2m h2 =>
        split at h
        · exact absurd h (by simp)
        next logs h3 =>
          injection h with h
          exact ⟨m0, lts0, l2m, logs, h0, h1, h2, h3, h.symm⟩

/-- Unpacking a successful `make_reverse_index` run into its stages. -/
lemma make_reverse_index_shape (db db' : Db) (h : make_reverse_index db = Except.ok db') :
    ∃ db1 db2 samples4 samples5,
      decorateAnns db = some db1 ∧
      decorateSampleData db1 = some db2 ∧
      linkKeyframes (token2ind SampleRec.token db.sample) (resetSamples db2).sample
        (resetSamples db2).sample_data = some samples4 ∧
      linkAnns (token2ind SampleRec.token db.sample) samples4
        (resetSamples db2).sample_anns = some samples5 ∧
      linkMaps { resetSamples db2 with sample := samples5 } = Except.ok db' := by
  unfold make_reverse_index at h
  split at h
  · exact absurd h (by simp)
  next db1 h1 =>
    split at h
    · exact absurd h (by simp)
    next db2 h2 =>
      split at h
      · exact absurd h (by simp)
      next samples4 h4 =>
        split at h
        · exact absurd h (by simp)
        next samples5 h5 =>
          exact ⟨db1, db2, samples4, samples5, h1, h2, h4, h5, h⟩

/-- Invariant of step 4: positions keep their sample token, and every entry
of a sample's `data` mapping comes from a keyframe sample_data of the full
list that is owned by that sample. -/
lemma linkKeyframes_inv (ind : String → Option ℕ) (raw : List SampleRec)
    (full : List SampleDataRec)
    (hind : ∀ t i, ind t = some i → ∃ r, raw.get? i = some r ∧ r.token = t) :
    ∀ (sds : List SampleDataRec) (ss ss' : List SampleRec),
      (∀ sd ∈ sds, sd ∈ full) →
      (∀ i s, ss.get? i = some s → ∃ r, raw.get? i = some r ∧ r.token = s.token) →
      (∀ s ∈ ss, ∀ p ∈ s.data, ∃ sd ∈ full, sd.is_key_frame = true ∧
          sd.sample_token = s.token ∧ sd.token = p.2) →
      linkKeyframes ind ss sds = some ss' →
      ∀ s ∈ ss', ∀ p ∈ s.data, ∃ sd ∈ full, sd.is_key_frame = true ∧
          sd.sample_token = s.token ∧ sd.token = p.2
  | [], ss, ss', hsub, halign, hP, hlink => by
    unfold linkKeyframes at hlink
    injection hlink with hlink
    subst hlink
    exact hP
  | sd :: rest, ss, ss', hsub, halign, hP, hlink => by
    unfold linkKeyframes at hlink
    by_cases hk : sd.is_key_frame = true
    · rw [if_pos hk] at hlink
      split at hlink
      · exact absurd hlink (by simp)
      next i hi =>
        split at hlink
        · exact absurd hlink (by simp)
        next s hs =>
          obtain ⟨r, hr, hrt⟩ := hind sd.sample_token i hi
          obtain ⟨r2, hr2, hrt2⟩ := halign i s hs
          rw [hr] at hr2
          injection hr2 with hr2
          subst hr2
          have hstok : s.token = sd.sample_token := by rw [← hrt2, hrt]
          refine linkKeyframes_inv ind raw full hind rest
            (ss.set i { s with data := dictInsert s.data sd.channel sd.token }) ss'
            (fun x hx => hsub x (List.mem_cons_of_mem _ hx)) ?_ ?_ hlink
          · intro j s2 hj
            rcases get?_set_inv _ ss i j s2 hj with ⟨hij, hx, b, hb⟩ | ⟨hij, hb⟩
            · subst hij
              subst hx
              exact halign i s hs
            · exact halign j s2 hb
          · intro s2 hs2 p hp
            rcases mem_set_inv _ ss i s2 hs2 with rfl | hmem
            · rcases dictInsert_mem sd.channel sd.token s.data p hp with rfl | hpd
              · exact ⟨sd, hsub sd (List.mem_cons_self _ _), hk, by rw [hstok], rfl⟩
              · obtain ⟨sd2, hsd2, h1, h2, h3⟩ := hP s (List.get?_mem hs) p hpd
                exact ⟨sd2, hsd2, h1, h2, h3⟩
            · exact hP s2 hmem p hp
    · rw [if_neg hk] at hlink
      exact linkKeyframes_inv ind raw full hind rest ss ss'
        (fun x hx => hsub x (List.mem_cons_of_mem _ hx)) halign hP hlink

/-- Step 5 leaves every sample's token and `data` mapping unchanged. -/
lemma linkAnns_preserves (ind : String → Option ℕ) :
    ∀ (anns : List AnnRec) (ss ss' : List SampleRec),
      linkAnns ind ss anns = some ss' →
      ∀ s2 ∈ ss', ∃ s ∈ ss, s.token = s2.token ∧ s.data = s2.data
  | [], ss, ss', hlink => by
    unfold linkAnns at hlink
    injection hlink with hlink
    subst hlink
    exact fun s2 hs2 => ⟨s2, hs2, rfl, rfl⟩
  | a :: rest, ss, ss', hlink => by
    unfold linkAnns at hlink
    split at hlink
    · exact absurd hlink (by simp)
    next i hi =>
      split at hlink
      · exact absurd hlink (by simp)
      next s hs =>
        intro s2 hs2
        obtain ⟨s3, hs3, ht3, hd3⟩ := linkAnns_preserves ind rest
          (ss.set i { s with anns := s.anns ++ [a.token] }) ss' hlink s2 hs2
        rcases mem_set_inv _ ss i s3 hs3 with rfl | hmem
        · exact ⟨s, List.get?_mem hs, ht3, hd3⟩
        · exact ⟨s3, hmem, ht3, hd3⟩

/-! ## Claims -/

/-- C1: for every table and every record r of the table (tokens unique
within a table, as the data model requires), `get(T, r.token)` returns
exactly r through the reverse index mapping each token to its position. -/
theorem C1_get_roundtrip {α : Type} (tok : α → String) (recs : List α) (r : α)
    (hnd : (recs.map tok).Nodup) (hr : r ∈ recs) :
    getRec tok recs (tok r) = some r :=
  getRec_mem_nodup tok recs r hnd hr

theorem C1_get_roundtrip_witness :
    getRec CategoryRec.token [(⟨"cat1", "car"⟩ : CategoryRec), ⟨"cat2", "truck"⟩]
      "cat2" = some ⟨"cat2", "truck"⟩ :=
  C1_get_roundtrip CategoryRec.token
    [⟨"cat1", "car"⟩, ⟨"cat2", "truck"⟩] ⟨"cat2", "truck"⟩ (by decide) (by decide)

/-- C9: `__load_table__` returns the empty sequence for an absent table
when missing tables are allowed, fails with a NotFound error otherwise,
and returns a present table unchanged. -/
theorem C9_load_table {α : Type} (fs : String → Option (List α)) (name : String) :
    (fs name = none → load_table fs name true = Except.ok [] ∧
      load_table fs name false = Except.error LoadErr.notFound) ∧
    (∀ t, fs name = some t → ∀ missing_ok, load_table fs name missing_ok = Except.ok t) := by
  constructor
  · intro h
    constructor <;> simp [load_table, h]
  · intro t h missing_ok
    simp [load_table, h]

theorem C9_load_table_witness :
    load_table (fun _ => (none : Option (List CategoryRec))) "category" true = Except.ok [] ∧
    load_table (fun _ => (none : Option (List CategoryRec))) "category" false =
      Except.error LoadErr.notFound ∧
    load_table (fun _ => some [(⟨"cat1", "car"⟩ : CategoryRec)]) "category" false =
      Except.ok [⟨"cat1", "car"⟩] :=
  ⟨((C9_load_table (fun _ => none) "category").1 rfl).1,
   ((C9_load_table (fun _ => none) "category").1 rfl).2,
   (C9_load_table (fun _ => some [(⟨"cat1", "car"⟩ : CategoryRec)]) "category").2
     [(⟨"cat1", "car"⟩ : CategoryRec)] rfl false⟩

/-- C10 (implicit): the load/denormalize phase succeeds only if every Log
record's token appears in some Map record's `log_tokens` list — an
uncovered log token makes the log-to-map backlink step fail. -/
theorem C10_log_coverage (db db' : Db) (h : make_reverse_index db = Except.ok db') :
    coveredByMaps db = true := by
  obtain ⟨db1, db2, s4, s5, h1, h2, h4, h5, h6⟩ := make_reverse_index_shape db db' h
  obtain ⟨l1, hm1, hdb1⟩ := decorateAnns_shape db db1 h1
  obtain ⟨l2, hm2, hdb2⟩ := decorateSampleData_shape db1 db2 h2
  obtain ⟨m0, lts0, l2m, logs, hh0, hh1, hh2, hh3, hdb'⟩ := linkMaps_shape _ db' h6
  subst hdb1
  subst hdb2
  simp only [resetSamples] at hh2 hh3
  rw [coveredByMaps, List.all_eq_true]
  intro lg hlg
  have hcov := setLogMapTokens_covers l2m db.log logs hh3 lg hlg
  rcases buildLogToMap_src lg.token db.map [] l2m hh2 hcov with hnone | ⟨m, hm, lts, hlts, htl⟩
  · exact absurd rfl hnone
  · rw [List.any_eq_true]
    refine ⟨m, hm, ?_⟩
    simp [hlts, htl]

theorem C10_log_coverage_witness : coveredByMaps exDb = true :=
  C10_log_coverage exDb exDbDen (by decide)

/-- C7 counterexample: when the second Map record lacks `log_tokens` while
the first carries it, the load fails with a plain KeyError, not with the
CompatibilityError the claim promises for whichever record lacks the
field (the compatibility check inspects only `map[0]`). -/
theorem C7_counterexample :
    c7Db.map.get? 1 = some ⟨"map2", "m2.png", none⟩ ∧
    make_reverse_index c7Db = Except.error LoadErr.keyError ∧
    Except.error LoadErr.keyError ≠
      (Except.error LoadErr.compatibilityError : Except LoadErr Db) := by
  refine ⟨by decide, by decide, by decide⟩

/-- C7 amended: a Map record lacking `log_tokens` still makes the
load/denormalize phase fail before completing, but the failure is the
CompatibilityError only when the first Map record lacks the field; step 6
fails on its own input with CompatibilityError whenever the first record
lacks it. -/
theorem C7_amended (db : Db) (r : MapRec) (hr : r ∈ db.map) (hlt : r.log_tokens = none) :
    isOk (make_reverse_index db) = false ∧
    (db.map.head? = some r → linkMaps db = Except.error LoadErr.compatibilityError) := by
  constructor
  · cases hmk : make_reverse_index db with
    | error e => rfl
    | ok db' =>
      obtain ⟨db1, db2, s4, s5, h1, h2, h4, h5, h6⟩ := make_reverse_index_shape db db' hmk
      obtain ⟨l1, hm1, hdb1⟩ := decorateAnns_shape db db1 h1
      obtain ⟨l2, hm2, hdb2⟩ := decorateSampleData_shape db1 db2 h2
      obtain ⟨m0, lts0, l2m, logs, hh0, hh1, hh2, hh3, hdb'⟩ := linkMaps_shape _ db' h6
      subst hdb1
      subst hdb2
      simp only [resetSamples] at hh2
      rw [buildLogToMap_none r hlt db.map [] hr] at hh2
      exact absurd hh2 (by simp)
  · intro hhead
    simp [linkMaps, hhead, hlt]

theorem C7_amended_witness : isOk (make_reverse_index c7Db) = false :=
  (C7_amended c7Db ⟨"map2", "m2.png", none⟩ (by decide) rfl).1

/-- C8: after a successful load/denormalize phase (sample_data tokens
unique within their table, as the data model requires), every channel
entry of every sample's `data` mapping refers to a keyframe sample_data
record owned by that sample — also when several keyframes share a channel
within one sample, because the dictionary write is last-write-wins. -/
theorem C8_keyframe_backrefs (db db' : Db)
    (h : make_reverse_index db = Except.ok db')
    (hnd : (db.sample_data.map SampleDataRec.token).Nodup)
    (s : SampleRec) (hs : s ∈ db'.sample)
    (ch t : String) (hmem : (ch, t) ∈ s.data) :
    keyframeBackref db' t s.token = true := by
  obtain ⟨db1, db2, s4, s5, h1, h2, h4, h5, h6⟩ := make_reverse_index_shape db db' h
  obtain ⟨l1, hm1, hdb1⟩ := decorateAnns_shape db db1 h1
  obtain ⟨l2, hm2, hdb2⟩ := decorateSampleData_shape db1 db2 h2
  obtain ⟨m0, lts0, l2m, logs, hh0, hh1, hh2, hh3, hdb'⟩ := linkMaps_shape _ db' h6
  subst hdb1
  subst hdb2
  subst hdb'
  simp only [resetSamples] at h4 h5 hs hmem ⊢
  -- sample_data tokens survive decoration unchanged, so uniqueness carries over
  have htok : l2.map SampleDataRec.token = db.sample_data.map SampleDataRec.token :=
    optMap_map_eq (decorateSd1 _) SampleDataRec.token SampleDataRec.token
      (fun a b hab => decorateSd1_token _ a b hab) db.sample_data l2 hm2
  have hnd2 : (l2.map SampleDataRec.token).Nodup := by rw [htok]; exact hnd
  -- step 4 invariant on the reset samples
  have hinv := linkKeyframes_inv (token2ind SampleRec.token db.sample) db.sample l2
    (fun t2 i2 hi2 => by
      obtain ⟨r2, hr2, ht2⟩ := token2ind_get SampleRec.token t2 db.sample i2 hi2
      exact ⟨r2, hr2, ht2⟩)
    l2 (db.sample.map fun s0 => { s0 with data := [], anns := [] }) s4
    (fun sd hsd => hsd)
    (fun i2 s2 hi2 => by
      rw [List.get?_map] at hi2
      cases hr2 : db.sample.get? i2 with
      | none => rw [hr2] at hi2; exact absurd hi2 (by simp)
      | some r2 =>
        rw [hr2] at hi2
        injection hi2 with hi2
        exact ⟨r2, rfl, by rw [← hi2]⟩)
    (fun s2 hs2 p hp => by
      obtain ⟨r2, _, hr2⟩ := List.mem_map.mp hs2
      rw [← hr2] at hp
      exact absurd hp (List.not_mem_nil p))
    h4
  -- step 5 keeps token and data
  obtain ⟨s4rec, hs4mem, hs4tok, hs4data⟩ := linkAnns_preserves _ _ s4 s5 h5 s hs
  have hp4 : (ch, t) ∈ s4rec.data := by rw [hs4data]; exact hmem
  obtain ⟨sd, hsdmem, hkf, hown, hsdtok⟩ := hinv s4rec hs4mem (ch, t) hp4
  -- the stored token resolves to that keyframe record
  have hsdtok2 : sd.token = t := hsdtok
  have hget : getRec SampleDataRec.token l2 t = some sd := by
    rw [← hsdtok2]
    exact getRec_mem_nodup SampleDataRec.token l2 sd hnd2 hsdmem
  rw [keyframeBackref]
  rw [hget]
  simp [hkf, hown, hs4tok]

theorem C8_keyframe_backrefs_witness : keyframeBackref exDbDen "sd0" "samp0" = true :=
  C8_keyframe_backrefs exDb exDbDen (by decide) (by decide) exSamp0d (by decide)
    "LIDAR_TOP" "sd0" (by decide)

/-- C4: for a keyframe capture, or one whose sample has no previous sample,
`get_boxes` returns exactly the boxes instantiated from the sample's own
annotation list, in order, with no interpolation applied. -/
theorem C4_keyframe_boxes (db : Db) (tk : String) (sd : SampleDataRec) (curr : SampleRec)
    (hsd : getRec SampleDataRec.token db.sample_data tk = some sd)
    (hcurr : getRec SampleRec.token db.sample sd.sample_token = some curr)
    (hcond : curr.prev = "" ∨ sd.is_key_frame = true) :
    get_boxes db tk = optMap (get_box db) curr.anns := by
  simp only [get_boxes, hsd, hcurr]
  rw [if_pos hcond]

theorem C4_keyframe_boxes_witness :
    get_boxes exDbDen "sd1" = optMap (get_box exDbDen) ["a1"] :=
  C4_keyframe_boxes exDbDen "sd1" exSd1d exSamp1d (by decide) (by decide)
    (Or.inr (by decide))

/-- C3 (code bug): with two samples sharing one timestamp and an instance
annotated in both, resolving a non-keyframe capture between them is NOT
guarded: the interpolation parameter `(t - t0) / (t1 - t0)` divides by
zero and `get_boxes` fails instead of returning the current sample's
unmodified annotations. -/
theorem C3_degenerate_interval_fails :
    (getRec SampleRec.token c3Db.sample "sampA").map SampleRec.timestamp =
      (getRec SampleRec.token c3Db.sample "sampB").map SampleRec.timestamp ∧
    get_boxes c3Db "sdX" = none := by
  constructor
  · decide
  · simp [get_boxes, getRec, token2ind, c3Db, optMap, interpOneBox, prevInstLookup,
      pyDiv, interp1, interpV, slerp, get_box]

/-! ## Endpoint lemmas for the temporal interpolator -/

lemma interp1_left (t0 t1 c0 c1 : ℚ) (h : t0 < t1) : interp1 t0 t0 t1 c0 c1 = c0 := by
  rw [interp1, if_neg (lt_irrefl t0), if_neg (not_le_of_lt h)]
  simp

lemma interp1_right (t0 t1 c0 c1 : ℚ) (h : t0 < t1) : interp1 t1 t0 t1 c0 c1 = c1 := by
  rw [interp1, if_neg (asymm h), if_pos (le_refl t1)]

lemma interpV_left (t0 t1 : ℚ) (a b : Vec3) (h : t0 < t1) : interpV t0 t0 t1 a b = a := by
  rcases a with ⟨a1, a2, a3⟩
  simp [interpV, interp1_left _ _ _ _ h]

lemma interpV_right (t0 t1 : ℚ) (a b : Vec3) (h : t0 < t1) : interpV t1 t0 t1 a b = b := by
  rcases b with ⟨b1, b2, b3⟩
  simp [interpV, interp1_right _ _ _ _ h]

lemma slerp_zero (q0 q1 : Quat) : slerp q0 q1 0 = q0 := by
  rcases q0 with ⟨w, x, y, z⟩
  simp [slerp]

lemma slerp_one (q0 q1 : Quat) : slerp q0 q1 1 = q1 := by
  rcases q1 with ⟨w, x, y, z⟩
  simp only [slerp, Quat.mk.injEq]
  refine ⟨by ring, by ring, by ring, by ring⟩

/-- C2: for a non-keyframe capture whose sample has a previous sample with
a strictly earlier timestamp, a capture timestamp at or below the previous
keyframe's timestamp yields, for every instance annotated in both samples,
a box carrying the previous annotation's translation and rotation exactly;
a capture timestamp at or above the current keyframe's timestamp yields
the current annotation's translation and rotation exactly — the
interpolation parameter is clamped to [t0, t1]. -/
theorem C2_clamped_endpoints (db : Db) (tk : String) (sd : SampleDataRec)
    (curr prev : SampleRec) (cset pset : List AnnRec) (c p : AnnRec) (boxes : List Box)
    (hsd : getRec SampleDataRec.token db.sample_data tk = some sd)
    (hcurr : getRec SampleRec.token db.sample sd.sample_token = some curr)
    (hprevne : ¬curr.prev = "")
    (hkf : sd.is_key_frame = false)
    (hprev : getRec SampleRec.token db.sample curr.prev = some prev)
    (hcset : optMap (getRec AnnRec.token db.sample_anns) curr.anns = some cset)
    (hpset : optMap (getRec AnnRec.token db.sample_anns) prev.anns = some pset)
    (hord : prev.timestamp < curr.timestamp)
    (hc : c ∈ cset)
    (hp : prevInstLookup pset c.instance_token = some p)
    (hboxes : get_boxes db tk = some boxes) :
    (sd.timestamp ≤ prev.timestamp →
      Box.mk p.translation c.size p.rotation c.category_name c.token ∈ boxes) ∧
    (curr.timestamp ≤ sd.timestamp →
      Box.mk c.translation c.size c.rotation c.category_name c.token ∈ boxes) := by
  have hne : ¬(curr.prev = "" ∨ sd.is_key_frame = true) := by
    rintro (h1 | h2)
    · exact hprevne h1
    · rw [hkf] at h2
      exact absurd h2 (by simp)
  simp only [get_boxes, hsd, hcurr, hprev, hcset, hpset, if_neg hne] at hboxes
  have hden : ¬curr.timestamp - prev.timestamp = 0 :=
    sub_ne_zero_of_ne (ne_of_gt hord)
  constructor
  · intro hts
    have htmax : max prev.timestamp (min curr.timestamp sd.timestamp) = prev.timestamp := by
      rw [min_eq_right (le_of_lt (lt_of_le_of_lt hts hord))]
      exact max_eq_left hts
    rw [htmax] at hboxes
    have hbox : interpOneBox (prevInstLookup pset) prev.timestamp curr.timestamp
        prev.timestamp db c =
        some (Box.mk p.translation c.size p.rotation c.category_name c.token) := by
      have hd : pyDiv (prev.timestamp - prev.timestamp) (curr.timestamp - prev.timestamp)
          = some 0 := by
        rw [pyDiv, if_neg hden, sub_self, zero_div]
      simp only [interpOneBox, hp, hd, interpV_left _ _ _ _ hord, slerp_zero]
    obtain ⟨b, hb, hbm⟩ := optMap_mem _ cset boxes hboxes c hc
    rw [hbox] at hb
    injection hb with hb
    rw [hb]
    exact hbm
  · intro hts
    have htmax : max prev.timestamp (min curr.timestamp sd.timestamp) = curr.timestamp := by
      rw [min_eq_left hts]
      exact max_eq_right (le_of_lt hord)
    rw [htmax] at hboxes
    have hbox : interpOneBox (prevInstLookup pset) prev.timestamp curr.timestamp
        curr.timestamp db c =
        some (Box.mk c.translation c.size c.rotation c.category_name c.token) := by
      have hd : pyDiv (curr.timestamp - prev.timestamp) (curr.timestamp - prev.timestamp)
          = some 1 := by
        rw [pyDiv, if_neg hden, div_self hden]
      simp only [interpOneBox, hp, hd, interpV_right _ _ _ _ hord, slerp_one]
    obtain ⟨b, hb, hbm⟩ := optMap_mem _ cset boxes hboxes c hc
    rw [hbox] at hb
    injection hb with hb
    rw [hb]
    exact hbm

theorem C2_clamped_endpoints_witness :
    Box.mk ((0 : ℚ), 0, 0) ((1 : ℚ), 2, 3) ⟨1, 0, 0, 0⟩ "car" "a1" ∈
      [Box.mk ((0 : ℚ), 0, 0) ((1 : ℚ), 2, 3) ⟨1, 0, 0, 0⟩ "car" "a1"] := by
  have hboxes : get_boxes exDbDen "sdi" =
      some [Box.mk ((0 : ℚ), 0, 0) ((1 : ℚ), 2, 3) ⟨1, 0, 0, 0⟩ "car" "a1"] := by
    simp [get_boxes, getRec, token2ind, optMap, interpOneBox, prevInstLookup, get_box,
      exDbDen, exDb, exSamp0, exSamp1, exSd0, exSd1, exSdi, exA0, exA1,
      exSamp0d, exSamp1d, exSd0d, exSd1d, exSdid, exA0d, exA1d,
      show min (2000000 : ℚ) 500000 = 500000 from by norm_num,
      show max (1000000 : ℚ) 500000 = 1000000 from by norm_num,
      slerp_zero]
    norm_num [pyDiv, interpV, interp1, slerp, Prod.ext_iff]
  exact (C2_clamped_endpoints exDbDen "sdi" exSdid exSamp1d exSamp0d [exA1d] [exA0d]
    exA1d exA0d [Box.mk ((0 : ℚ), 0, 0) ((1 : ℚ), 2, 3) ⟨1, 0, 0, 0⟩ "car" "a1"]
    (by decide) (by decide) (by decide) (by decide) (by decide)
    (by decide) (by decide) (by decide) (by decide) (by decide) hboxes).1 (by decide)

/-- C5: `box_velocity` yields the NaN sentinel for an annotation with
neither prev nor next link; otherwise it takes first = prev-if-present-
else-self and last = next-if-present-else-self, doubles the allowed
threshold exactly when both links exist, yields NaN when the owning
samples' time difference in seconds exceeds the threshold, and otherwise
the componentwise position delta divided by the time delta. -/
theorem C5_box_velocity (db : Db) (tk : String) (m : ℚ) (current first lst : AnnRec)
    (sFirst sLast : SampleRec)
    (hcur : getRec AnnRec.token db.sample_anns tk = some current)
    (hfirst : (if current.prev ≠ "" then getRec AnnRec.token db.sample_anns current.prev
               else some current) = some first)
    (hlast : (if current.next ≠ "" then getRec AnnRec.token db.sample_anns current.next
              else some current) = some lst)
    (hsF : getRec SampleRec.token db.sample first.sample_token = some sFirst)
    (hsL : getRec SampleRec.token db.sample lst.sample_token = some sLast) :
    box_velocity db tk m = some (
      if current.prev = "" ∧ current.next = "" then none
      else if (sLast.timestamp - sFirst.timestamp) / 1000000 >
          (if current.next ≠ "" ∧ current.prev ≠ "" then 2 * m else m) then none
      else some (divV (subV lst.translation first.translation)
        ((sLast.timestamp - sFirst.timestamp) / 1000000))) := by
  by_cases hno : current.prev = "" ∧ current.next = ""
  · simp only [box_velocity, hcur, if_pos hno]
  · simp only [box_velocity, hcur, if_neg hno, hfirst, hlast, hsF, hsL]
    have harith : (1 / 1000000 : ℚ) * sLast.timestamp - (1 / 1000000 : ℚ) * sFirst.timestamp
        = (sLast.timestamp - sFirst.timestamp) / 1000000 := by ring
    rw [harith]
    rw [apply_ite some]

theorem C5_box_velocity_witness :
    box_velocity exDbDen "a1" (3 / 2) = some (some ((2 : ℚ), 0, 0)) := by
  have h := C5_box_velocity exDbDen "a1" (3 / 2) exA1d exA0d exA1d exSamp0d exSamp1d
    (by decide) (by decide) (by decide) (by decide) (by decide)
  rw [h]
  simp [exA0d, exA1d, exA0, exA1, exSamp0d, exSamp1d, exSamp0, exSamp1]
  norm_num [divV, subV]

/-- C6: in `get_sample_data`, a non-camera sensor never discards a box —
every resolved box appears, transformed, in the output — and the returned
camera intrinsic is none; a camera sensor keeps a box iff it passes the
box-visibility check against the camera intrinsic and image size at the
requested level, and returns the intrinsic. -/
theorem C6_visibility_filter (ext : Externals) (db : Db) (tk : String)
    (lvl : BoxVisibility) (selected : Option (List String)) (flat : Bool)
    (sd : SampleDataRec) (cs : CalRec) (sensor : SensorRec) (pose : EgoPoseRec)
    (boxes : List Box)
    (hsd : getRec SampleDataRec.token db.sample_data tk = some sd)
    (hcs : getRec CalRec.token db.calibrated_sensor sd.calibrated_sensor_token = some cs)
    (hsen : getRec SensorRec.token db.sensor cs.sensor_token = some sensor)
    (hpose : getRec EgoPoseRec.token db.ego_pose sd.ego_pose_token = some pose)
    (hboxes : (match selected with
               | some toks => optMap (get_box db) toks
               | none => get_boxes db tk) = some boxes) :
    (sensor.modality ≠ "camera" →
      get_sample_data ext db tk lvl selected flat =
        some (sd.filename, boxes.map (transformBox ext flat pose cs), none)) ∧
    (sensor.modality = "camera" →
      get_sample_data ext db tk lvl selected flat =
        some (sd.filename,
          (boxes.map (transformBox ext flat pose cs)).filter
            (fun b => ext.boxInImage b cs.camera_intrinsic (sd.width, sd.height) lvl),
          some cs.camera_intrinsic)) := by
  constructor
  · intro hmod
    simp only [get_sample_data, hsd, hcs, hsen, hpose, hboxes, if_neg hmod]
    simp
  · intro hmod
    simp only [get_sample_data, hsd, hcs, hsen, hpose, hboxes, if_pos hmod]

theorem C6_visibility_filter_witness :
    get_sample_data exExternals exDbDen "sd1" BoxVisibility.ANY none false =
      some ("f1.bin",
        [Box.mk ((2 : ℚ), 0, 0) ((1 : ℚ), 2, 3) ⟨0, 1, 0, 0⟩ "car" "a1"].map
          (transformBox exExternals false ⟨"ep1", ⟨1, 0, 0, 0⟩, (0, 0, 0), 1000000⟩
            ⟨"cs1", "sen1", ⟨1, 0, 0, 0⟩, (0, 0, 0), []⟩),
        none) :=
  (C6_visibility_filter exExternals exDbDen "sd1" BoxVisibility.ANY none false
    exSd1d ⟨"cs1", "sen1", ⟨1, 0, 0, 0⟩, (0, 0, 0), []⟩ ⟨"sen1", "LIDAR_TOP", "lidar"⟩
    ⟨"ep1", ⟨1, 0, 0, 0⟩, (0, 0, 0), 1000000⟩
    [Box.mk ((2 : ℚ), 0, 0) ((1 : ℚ), 2, 3) ⟨0, 1, 0, 0⟩ "car" "a1"]
    (by decide) (by decide) (by decide) (by decide) (by decide)).1 (by decide)
